import Mathlib

/-!
Verification of the ansible-jobs-dashboard backend (`backend/app/main.py`).

The backend is a small stateful HTTP service over a relational store with two
tables (`jobs`, `job_logs`) and five handlers: `api_start`, `api_progress`,
`api_complete`, `api_jobs`, `api_job_logs`, plus a WebSocket broadcast hub
(`ConnectionManager.broadcast`).

Shallow embedding conventions:
- The database is a `Store` value: the `jobs` and `job_logs` tables are lists
  in insertion (rowid) order, with the autoincrement counters made explicit.
- `datetime` values are `Nat` ticks (seconds); `datetime.min` is `0`;
  `datetime.utcnow()` is an explicit `now` argument threaded into each handler.
- SQL `Float` columns hold only values that are stored and read back verbatim
  (no arithmetic is performed on them), so they are embedded as `Rat`.
- Python truthiness on `str | None` fields (`if payload.message:`) is the
  `truthy` predicate: `None` and the empty string are falsy.
- Each mutating handler returns the new store together with the list of
  broadcast events it emits, in emission order; the 404 branch is `notFound`.
-/

namespace Dashboard

/-- A row of the `jobs` table (class `Job` in `main.py`). -/
structure Job where
  id : Nat
  job_name : String
  scope : String
  triggered_by : String
  status : String
  progress : Rat
  start_time : Nat
  end_time : Option Nat
  deriving Repr, DecidableEq

/-- A row of the `job_logs` table (class `JobLog` in `main.py`). -/
structure JobLog where
  id : Nat
  job_id : Nat
  ts : Nat
  level : String
  message : String
  deriving Repr, DecidableEq

/-- The relational store: both tables in rowid (insertion) order together with
the autoincrement counters for their integer primary keys. -/
structure Store where
  jobs : List Job
  logs : List JobLog
  next_job_id : Nat
  next_log_id : Nat
  deriving Repr, DecidableEq

/-- A fresh SQLite database: both tables empty, autoincrement ids start at 1. -/
def emptyStore : Store := ⟨[], [], 1, 1⟩

/-- Body of `POST /api/jobs/start` (`StartPayload` in `main.py`); the `job_id`
field exists in the pydantic model but is never read by the handler. -/
structure StartPayload where
  job_name : String
  scope : String
  triggered_by : String
  job_id : Option String := none
  deriving Repr, DecidableEq

/-- Body of `POST /api/jobs/progress` (`ProgressPayload` in `main.py`). -/
structure ProgressPayload where
  job_id : Nat
  progress : Option Rat := none
  message : Option String := none
  level : Option String := some "info"
  deriving Repr, DecidableEq

/-- Body of `POST /api/jobs/complete` (`CompletePayload` in `main.py`). -/
structure CompletePayload where
  job_id : Nat
  status : String
  message : Option String := none
  deriving Repr, DecidableEq

/-- Python truthiness of a `str | None` value: `None` and `""` are falsy. -/
def truthy : Option String → Bool
  | none => false
  | some s => s ≠ ""

/-- `payload.level or "info"`: Python `or` falls through on `None` and `""`. -/
def orInfo : Option String → String
  | none => "info"
  | some s => if s = "" then "info" else s

/-- A broadcast event, as serialized by `manager.broadcast` calls in the
handlers.  `job_log` carries the raw `payload.level` (line 154 of `main.py`
sends `payload.level`, not `payload.level or "info"`). -/
inductive Event where
  | job_start (job : Job)
  | job_progress (job : Job)
  | job_log (job_id : Nat) (message : String) (level : Option String) (ts : Nat)
  | job_complete (job : Job)
  deriving Repr, DecidableEq

/-- Result of a mutating handler: the JSON 404 branch or the success branch. -/
inductive ApiResp (α : Type) where
  | notFound
  | ok (v : α)
  deriving Repr, DecidableEq

/-- `db.query(Job).filter(Job.id == jid).first()`: the first row (in rowid
order) whose id matches. -/
def findJob (s : Store) (jid : Nat) : Option Job :=
  s.jobs.find? (fun j => j.id == jid)

/-- SQLAlchemy row mutation: the handler mutates the single ORM object
returned by `.first()`, i.e. the first row with the given id. -/
def replaceFirstJob (f : Job → Job) (jid : Nat) : List Job → List Job
  | [] => []
  | j :: rest =>
      if j.id = jid then f j :: rest else j :: replaceFirstJob f jid rest

/-- `POST /api/jobs/start` (`api_start`, `main.py` lines 120-135): insert a new
job row (status/progress/start_time from the column defaults), insert the
initial "Job started" log row, broadcast `job_start`, return the new id. -/
def api_start (p : StartPayload) (now : Nat) (s : Store) :
    Store × List Event × Nat :=
  let jid := s.next_job_id
  let new_job : Job :=
    ⟨jid, p.job_name, p.scope, p.triggered_by, "running", 0, now, none⟩
  let log : JobLog := ⟨s.next_log_id, jid, now, "info", "Job started"⟩
  (⟨s.jobs ++ [new_job], s.logs ++ [log], jid + 1, s.next_log_id + 1⟩,
   [Event.job_start new_job], jid)

/-- `POST /api/jobs/progress` (`api_progress`, `main.py` lines 137-155):
404 on unknown id; else overwrite `progress` when supplied (no clamping in the
source), append a log row when the message is truthy, broadcast `job_progress`
and then `job_log` when the message is truthy. -/
def api_progress (p : ProgressPayload) (now : Nat) (s : Store) :
    ApiResp (Store × List Event) :=
  match findJob s p.job_id with
  | none => .notFound
  | some job =>
      -- `if payload.progress is not None: job.progress = payload.progress`
      let job' : Job := { job with progress := p.progress.getD job.progress }
      let withMsg := truthy p.message
      let msgText := p.message.getD ""
      let logs' :=
        if withMsg then
          s.logs ++ [⟨s.next_log_id, p.job_id, now, orInfo p.level, msgText⟩]
        else s.logs
      let s' : Store :=
        ⟨replaceFirstJob (fun _ => job') p.job_id s.jobs, logs',
         s.next_job_id,
         if withMsg then s.next_log_id + 1 else s.next_log_id⟩
      let evs :=
        Event.job_progress job' ::
          (if withMsg then [Event.job_log p.job_id msgText p.level now] else [])
      .ok (s', evs)

/-- `POST /api/jobs/complete` (`api_complete`, `main.py` lines 157-172):
404 on unknown id; else set `status` to the payload value verbatim (no
validation in the source), `progress` to 100, `end_time` to now; append a log
row when the message is truthy; broadcast `job_complete`. -/
def api_complete (p : CompletePayload) (now : Nat) (s : Store) :
    ApiResp (Store × List Event) :=
  match findJob s p.job_id with
  | none => .notFound
  | some job =>
      let job' : Job :=
        { job with status := p.status, progress := 100, end_time := some now }
      let withMsg := truthy p.message
      let logs' :=
        if withMsg then
          s.logs ++ [⟨s.next_log_id, p.job_id, now, "info", p.message.getD ""⟩]
        else s.logs
      let s' : Store :=
        ⟨replaceFirstJob (fun _ => job') p.job_id s.jobs, logs',
         s.next_job_id,
         if withMsg then s.next_log_id + 1 else s.next_log_id⟩
      .ok (s', [Event.job_complete job'])

/-- Ordering used by `order_by(Job.start_time.desc())`. -/
def jobDesc (a b : Job) : Prop := b.start_time ≤ a.start_time

/-- Ordering used by `order_by(JobLog.ts.asc())`. -/
def logAsc (a b : JobLog) : Prop := a.ts ≤ b.ts

instance : DecidableRel jobDesc := fun a b => Nat.decLe b.start_time a.start_time
instance : DecidableRel logAsc := fun a b => Nat.decLe a.ts b.ts

instance : IsTotal Job jobDesc := ⟨fun a b => Nat.le_total b.start_time a.start_time⟩
instance : IsTrans Job jobDesc := ⟨fun _ _ _ h h' => Nat.le_trans h' h⟩
instance : IsTotal JobLog logAsc := ⟨fun a b => Nat.le_total a.ts b.ts⟩
instance : IsTrans JobLog logAsc := ⟨fun _ _ _ h h' => Nat.le_trans h h'⟩

/-- Cutoff computation of `api_jobs` (`main.py` lines 177-185): the three
recognized range keywords subtract a timedelta from now; anything else uses
`datetime.min`, i.e. tick 0. -/
def cutoffFor (range : String) (now : Nat) : Nat :=
  if range = "24h" then now - 24 * 3600
  else if range = "7d" then now - 7 * 24 * 3600
  else if range = "30d" then now - 30 * 24 * 3600
  else 0

/-- `GET /api/jobs` (`api_jobs`, `main.py` lines 174-187): rows with
`start_time >= cutoff`, ordered by `start_time` descending. -/
def api_jobs (range : String) (now : Nat) (s : Store) : List Job :=
  let cutoff := cutoffFor range now
  List.insertionSort jobDesc
    (s.jobs.filter (fun j => decide (cutoff ≤ j.start_time)))

/-- The query `db.query(JobLog).filter(JobLog.job_id == job_id)
.order_by(JobLog.ts.asc())` of `api_job_logs`, before pagination. -/
def sortedLogsFor (s : Store) (job_id : Nat) : List JobLog :=
  List.insertionSort logAsc (s.logs.filter (fun l => l.job_id == job_id))

/-- `GET /api/jobs/{job_id}/logs` (`api_job_logs`, `main.py` lines 189-203):
that job's rows ordered by `ts` ascending; `if offset and offset > 0` applies
the offset, `if limit and limit > 0` applies the limit (so `limit <= 0` means
unbounded). -/
def api_job_logs (job_id : Nat) (limit : Int) (offset : Int) (s : Store) :
    List JobLog :=
  let q := sortedLogsFor s job_id
  let q := if offset > 0 then q.drop offset.toNat else q
  if limit > 0 then q.take limit.toNat else q

/-- An observer handle held in `ConnectionManager.active` (opaque here). -/
abbrev Observer : Type := Nat

/-- `asyncio.gather(*tasks, return_exceptions=True)`: every task's outcome,
success or exception, is collected into the result list; no exception is
re-raised into the caller. -/
def gatherReturnExceptions (tasks : List (Except String Unit)) :
    Except String (List (Except String Unit)) :=
  .ok tasks

/-- `ConnectionManager.broadcast` (`main.py` lines 80-84): nothing to do when
no observer is registered, else one `send_text` per registered observer,
awaited through `gather(..., return_exceptions=True)`.  `send` gives each
observer's delivery outcome. -/
def broadcast (active : List Observer) (send : Observer → Except String Unit) :
    Except String (List (Except String Unit)) :=
  if active.isEmpty then .ok []
  else gatherReturnExceptions (active.map send)

/-- One ingestion API call with its wall-clock instant. -/
inductive Op where
  | start (p : StartPayload) (now : Nat)
  | progress (p : ProgressPayload) (now : Nat)
  | complete (p : CompletePayload) (now : Nat)
  deriving Repr, DecidableEq

/-- The store after handling one request (a 404 leaves the store as it was). -/
def applyOp (s : Store) : Op → Store
  | .start p now => (api_start p now s).1
  | .progress p now =>
      match api_progress p now s with
      | .ok (s', _) => s'
      | .notFound => s
  | .complete p now =>
      match api_complete p now s with
      | .ok (s', _) => s'
      | .notFound => s

/-- The store reached from a fresh database by a sequence of API calls. -/
def run (ops : List Op) : Store := ops.foldl applyOp emptyStore

/-- `clamp(p, 0, 100)` as the spec words it (the source has no such
operation; this definition exists only to be compared with `api_progress`). -/
def clampSpec (x : Rat) : Rat := max 0 (min x 100)

/-! Concrete instances used by counterexamples and witnesses. -/

/-- A start report, as the callback plugin would send one. -/
def exStart : StartPayload := ⟨"Deploy", "servers:web", "alice", none⟩

/-- The job row `api_start exStart 0` inserts into a fresh database. -/
def exJob1 : Job := ⟨1, "Deploy", "servers:web", "alice", "running", 0, 0, none⟩

/-- A store holding exactly one running job (id 1). -/
def exStore : Store := run [Op.start exStart 0]

/-- A store holding job 1 plus a progress report with a log message. -/
def exStore2 : Store :=
  run [Op.start exStart 0, Op.progress ⟨1, some 50, some "halfway", some "info"⟩ 3]

/-- A progress report with an out-of-range value. -/
def exProgress150 : ProgressPayload := ⟨1, some 150, none, some "info"⟩

/-- A progress report for a job id that exists in no store reached below. -/
def exProgressUnknown : ProgressPayload := ⟨5, some 10, some "x", some "info"⟩

/-- A completion report for a job id that exists in no store reached below. -/
def exCompleteUnknown : CompletePayload := ⟨5, "failed", some "y"⟩

/-- A completion report whose message is present but empty. -/
def exCompleteEmptyMsg : CompletePayload := ⟨1, "success", some ""⟩

/-- A completion report with a non-empty final message. -/
def exCompleteDone : CompletePayload := ⟨1, "success", some "done"⟩

/-- A completion report with a non-terminal status string. -/
def exCompletePaused : CompletePayload := ⟨1, "paused", none⟩

/-- A completion report with the terminal status `success`. -/
def exCompleteSuccess : CompletePayload := ⟨1, "success", none⟩

/-- A completion report that re-sends the initial status `running`. -/
def exCompleteRunning : CompletePayload := ⟨1, "running", none⟩

/-- A progress report whose message is present but empty. -/
def exProgressEmptyMsg : ProgressPayload := ⟨1, some 50, some "", some "info"⟩

/-- A delivery oracle where observer 0's channel fails and observer 1's
channel succeeds. -/
def exSend : Observer → Except String Unit :=
  fun w => if w = 0 then .error "connection closed" else .ok ()

end Dashboard

/-! General lemmas about the handlers and row mutation. -/

namespace Dashboard

lemma findJob_eq_id {s : Store} {jid : Nat} {job : Job}
    (h : findJob s jid = some job) : job.id = jid := by
  unfold findJob at h
  have h' := List.find?_some h
  simpa using h'

lemma mem_of_findJob {s : Store} {jid : Nat} {job : Job}
    (h : findJob s jid = some job) : job ∈ s.jobs := by
  unfold findJob at h
  exact List.mem_of_find?_eq_some h

lemma api_progress_ok_shape (p : ProgressPayload) (now : Nat) (s : Store) (job : Job)
    (hf : findJob s p.job_id = some job) :
    api_progress p now s = .ok
      (⟨replaceFirstJob (fun _ => { job with progress := p.progress.getD job.progress })
          p.job_id s.jobs,
        if truthy p.message then
          s.logs ++ [⟨s.next_log_id, p.job_id, now, orInfo p.level, p.message.getD ""⟩]
        else s.logs,
        s.next_job_id,
        if truthy p.message then s.next_log_id + 1 else s.next_log_id⟩,
       Event.job_progress { job with progress := p.progress.getD job.progress } ::
         if truthy p.message then [Event.job_log p.job_id (p.message.getD "") p.level now]
         else []) := by
  unfold api_progress
  rw [hf]

lemma api_complete_ok_shape (p : CompletePayload) (now : Nat) (s : Store) (job : Job)
    (hf : findJob s p.job_id = some job) :
    api_complete p now s = .ok
      (⟨replaceFirstJob
          (fun _ => { job with status := p.status, progress := 100, end_time := some now })
          p.job_id s.jobs,
        if truthy p.message then
          s.logs ++ [⟨s.next_log_id, p.job_id, now, "info", p.message.getD ""⟩]
        else s.logs,
        s.next_job_id,
        if truthy p.message then s.next_log_id + 1 else s.next_log_id⟩,
       [Event.job_complete
          { job with status := p.status, progress := 100, end_time := some now }]) := by
  unfold api_complete
  rw [hf]

lemma length_replaceFirstJob (f : Job → Job) (jid : Nat) (l : List Job) :
    (replaceFirstJob f jid l).length = l.length := by
  induction l with
  | nil => rfl
  | cons j rest ih =>
      by_cases h : j.id = jid <;> simp [replaceFirstJob, h, ih]

lemma mem_replaceFirstJob {f : Job → Job} {jid : Nat} {l : List Job} {j : Job}
    (h : j ∈ replaceFirstJob f jid l) :
    j ∈ l ∨ ∃ j0 ∈ l, j0.id = jid ∧ j = f j0 := by
  induction l with
  | nil => simp [replaceFirstJob] at h
  | cons a rest ih =>
      by_cases ha : a.id = jid
      · simp [replaceFirstJob, ha] at h
        rcases h with h | h
        · exact Or.inr ⟨a, by simp, ha, h⟩
        · exact Or.inl (List.mem_cons_of_mem _ h)
      · simp [replaceFirstJob, ha] at h
        rcases h with h | h
        · exact Or.inl (by simp [h])
        · rcases ih h with h' | ⟨j0, hj0, hid, hje⟩
          · exact Or.inl (List.mem_cons_of_mem _ h')
          · exact Or.inr ⟨j0, List.mem_cons_of_mem _ hj0, hid, hje⟩

lemma replaceFirst_const_eq {l : List Job} {jid : Nat} {job : Job} (f : Job → Job)
    (h : l.find? (fun j => j.id == jid) = some job) :
    replaceFirstJob (fun _ => f job) jid l = replaceFirstJob f jid l := by
  induction l with
  | nil => rfl
  | cons a rest ih =>
      by_cases ha : a.id = jid
      · have : a = job := by
          rw [List.find?_cons_of_pos] at h
          · exact Option.some_inj.mp h
          · simp [ha]
        subst this
        simp [replaceFirstJob, ha]
      · rw [List.find?_cons_of_neg] at h
        · simp [replaceFirstJob, ha, ih h]
        · simp [ha]

lemma find?_replaceFirstJob {l : List Job} {jid : Nat} {job : Job} (job' : Job)
    (h : l.find? (fun j => j.id == jid) = some job) (hid : job'.id = jid) :
    (replaceFirstJob (fun _ => job') jid l).find? (fun j => j.id == jid) = some job' := by
  induction l with
  | nil => simp at h
  | cons a rest ih =>
      by_cases ha : a.id = jid
      · simp [replaceFirstJob, ha, List.find?_cons_of_pos, hid]
      · rw [List.find?_cons_of_neg] at h
        · simp only [replaceFirstJob, ha, if_false]
          rw [List.find?_cons_of_neg]
          · exact ih h
          · simp [ha]
        · simp [ha]

lemma getElem_replaceFirstJob (f : Job → Job) (jid : Nat) (l : List Job) (i : Nat)
    (hi : i < (replaceFirstJob f jid l).length) (hi' : i < l.length) :
    (replaceFirstJob f jid l)[i] = l[i] ∨ (replaceFirstJob f jid l)[i] = f l[i] := by
  induction l generalizing i with
  | nil => simp at hi'
  | cons a rest ih =>
      by_cases ha : a.id = jid
      · cases i with
        | zero => simp [replaceFirstJob, ha]
        | succ n => simp [replaceFirstJob, ha]
      · cases i with
        | zero => simp [replaceFirstJob, ha]
        | succ n =>
            have hn : n < rest.length := by simpa using hi'
            have hn2 : n < (replaceFirstJob f jid rest).length := by
              rw [length_replaceFirstJob]; exact hn
            simpa [replaceFirstJob, ha] using ih n hn2 hn

end Dashboard

/-! Claim theorems. -/

namespace Dashboard

/-- C1 counterexample: on the store holding the known job 1, a progress report
with `p = 150` is accepted (not a 404) and stores `150` — the handler does not
clamp — while `clamp(150, 0, 100) = 100`, so the stored progress differs from
the claimed clamp. -/
theorem C1_counterexample :
    api_progress exProgress150 5 exStore ≠ .notFound ∧
    (findJob (applyOp exStore (Op.progress exProgress150 5)) 1).map Job.progress
      = some 150 ∧
    clampSpec 150 = 100 ∧
    (findJob (applyOp exStore (Op.progress exProgress150 5)) 1).map Job.progress
      ≠ some (clampSpec 150) := by decide

/-- C1 (amended): for every `recordProgress` call (`POST /api/jobs/progress`)
on a known job that supplies a numeric progress value `p`, the call succeeds
and the progress value stored for that job equals `p` verbatim: no clamping is
applied, so `p = 150` stores `150`, `p = -5` stores `-5`, and the stored
progress can lie outside `[0, 100]`. -/
theorem C1_amended_progress_stored_verbatim (p : ProgressPayload) (now : Nat)
    (s : Store) (job : Job) (pr : Rat)
    (hf : findJob s p.job_id = some job) (hp : p.progress = some pr) :
    ∃ s' evs, api_progress p now s = .ok (s', evs) ∧
      ∃ job', findJob s' p.job_id = some job' ∧ job'.progress = pr := by
  refine ⟨_, _, api_progress_ok_shape p now s job hf, ?_⟩
  refine ⟨{ job with progress := p.progress.getD job.progress }, ?_, by simp [hp]⟩
  exact find?_replaceFirstJob _ (by unfold findJob at hf; exact hf)
    (show ({ job with progress := p.progress.getD job.progress } : Job).id = p.job_id
      from @findJob_eq_id s p.job_id job hf)

/-- C1 witness: the amended statement evaluated at the concrete out-of-range
report `exProgress150` against the one-job store. -/
theorem C1_witness :
    ∃ s' evs, api_progress exProgress150 5 exStore = .ok (s', evs) ∧
      ∃ job', findJob s' exProgress150.job_id = some job' ∧ job'.progress = 150 :=
  C1_amended_progress_stored_verbatim exProgress150 5 exStore exJob1 150
    (by decide) rfl

/-- C2: every `recordProgress` or `completeJob` call whose job id matches no
existing job returns the 404 NotFound response, and the store is left entirely
unchanged: no job is created, no log entry is written, no job is mutated. -/
theorem C2_unknown_job_not_found (pp : ProgressPayload) (cp : CompletePayload)
    (now now' : Nat) (s : Store)
    (h1 : findJob s pp.job_id = none) (h2 : findJob s cp.job_id = none) :
    api_progress pp now s = .notFound ∧ api_complete cp now' s = .notFound ∧
    applyOp s (.progress pp now) = s ∧ applyOp s (.complete cp now') = s := by
  have hp : api_progress pp now s = .notFound := by
    unfold api_progress; rw [h1]
  have hc : api_complete cp now' s = .notFound := by
    unfold api_complete; rw [h2]
  refine ⟨hp, hc, ?_, ?_⟩
  · simp only [applyOp]; rw [hp]
  · simp only [applyOp]; rw [hc]

/-- C2 witness: the statement evaluated at concrete reports naming job id 5
against the store that only holds job 1. -/
theorem C2_witness :
    api_progress exProgressUnknown 3 exStore = .notFound ∧
    api_complete exCompleteUnknown 4 exStore = .notFound ∧
    applyOp exStore (.progress exProgressUnknown 3) = exStore ∧
    applyOp exStore (.complete exCompleteUnknown 4) = exStore :=
  C2_unknown_job_not_found exProgressUnknown exCompleteUnknown 3 4 exStore
    (by decide) (by decide)

end Dashboard

namespace Dashboard

/-- C3 counterexample: a `completeJob` call on the known job 1 whose message
field is supplied but empty (`some ""`) is accepted, yet appends no log entry:
the log count is unchanged, contradicting the claim that a supplied message
always appends one entry. -/
theorem C3_counterexample :
    exCompleteEmptyMsg.message = some "" ∧
    api_complete exCompleteEmptyMsg 9 exStore ≠ .notFound ∧
    (applyOp exStore (Op.complete exCompleteEmptyMsg 9)).logs.length
      = exStore.logs.length := by decide

/-- C3 (amended): every `completeJob` call on a known job returns ok and sets
the job's `end_time` to the call time, its `progress` to 100 and its `status`
to the requested value, regardless of prior progress or status; one additional
log entry is appended exactly when the supplied message is non-empty (an
absent or empty-string message appends none). -/
theorem C3_amended_complete_terminal (p : CompletePayload) (now : Nat)
    (s : Store) (job : Job) (hf : findJob s p.job_id = some job) :
    ∃ s' evs, api_complete p now s = .ok (s', evs) ∧
      (∃ job', findJob s' p.job_id = some job' ∧
        job'.end_time = some now ∧ job'.progress = 100 ∧ job'.status = p.status) ∧
      s'.logs.length = s.logs.length + (if truthy p.message then 1 else 0) := by
  refine ⟨_, _, api_complete_ok_shape p now s job hf, ?_, ?_⟩
  · have hid : ({ job with status := p.status, progress := 100, end_time := some now } : Job).id = p.job_id :=
      @findJob_eq_id s p.job_id job hf
    exact ⟨_, find?_replaceFirstJob _ (by unfold findJob at hf; exact hf) hid,
      rfl, rfl, rfl⟩
  · by_cases h : truthy p.message <;> simp [h]

/-- C3 witness: the amended statement evaluated at the concrete completion
report `exCompleteDone` against the one-job store. -/
theorem C3_witness :
    ∃ s' evs, api_complete exCompleteDone 9 exStore = .ok (s', evs) ∧
      (∃ job', findJob s' exCompleteDone.job_id = some job' ∧
        job'.end_time = some 9 ∧ job'.progress = 100 ∧
        job'.status = exCompleteDone.status) ∧
      s'.logs.length = exStore.logs.length +
        (if truthy exCompleteDone.message then 1 else 0) :=
  C3_amended_complete_terminal exCompleteDone 9 exStore exJob1 (by decide)

/-- C4 counterexample: `api_complete` stores the requested status string with
no validation, so the sequence start; complete("paused") reaches a store whose
job has status `paused`, outside {running, success, failed}; and the sequence
start; complete("success"); complete("running") moves a terminal status back
to `running`. -/
theorem C4_counterexample :
    (run [Op.start exStart 0, Op.complete exCompletePaused 7]).jobs.map Job.status
      = ["paused"] ∧
    "paused" ∉ (["running", "success", "failed"] : List String) ∧
    (run [Op.start exStart 0, Op.complete exCompleteSuccess 7,
          Op.complete exCompleteRunning 8]).jobs.map Job.status = ["running"] := by
  decide

lemma status_mem_applyOp {s : Store} {op : Op} {j : Job}
    (h : j ∈ (applyOp s op).jobs) :
    (∃ j0 ∈ s.jobs, j.status = j0.status) ∨ j.status = "running" ∨
    ∃ p now, op = Op.complete p now ∧ j.status = p.status := by
  cases op with
  | start p now =>
      simp only [applyOp, api_start] at h
      rcases List.mem_append.mp h with h | h
      · exact Or.inl ⟨j, h, rfl⟩
      · have hj : j = ⟨s.next_job_id, p.job_name, p.scope, p.triggered_by,
            "running", 0, now, none⟩ := by simpa using h
        subst hj
        exact Or.inr (Or.inl rfl)
  | progress p now =>
      cases hf : findJob s p.job_id with
      | none =>
          simp only [applyOp] at h
          rw [show api_progress p now s = .notFound by
            unfold api_progress; rw [hf]] at h
          exact Or.inl ⟨j, h, rfl⟩
      | some job =>
          simp only [applyOp] at h
          rw [api_progress_ok_shape p now s job hf] at h
          rcases mem_replaceFirstJob h with h | ⟨j0, hj0, hid, hje⟩
          · exact Or.inl ⟨j, h, rfl⟩
          · subst hje
            exact Or.inl ⟨job, mem_of_findJob hf, rfl⟩
  | complete p now =>
      cases hf : findJob s p.job_id with
      | none =>
          simp only [applyOp] at h
          rw [show api_complete p now s = .notFound by
            unfold api_complete; rw [hf]] at h
          exact Or.inl ⟨j, h, rfl⟩
      | some job =>
          simp only [applyOp] at h
          rw [api_complete_ok_shape p now s job hf] at h
          rcases mem_replaceFirstJob h with h | ⟨j0, hj0, hid, hje⟩
          · exact Or.inl ⟨j, h, rfl⟩
          · subst hje
            exact Or.inr (Or.inr ⟨p, now, rfl, rfl⟩)

lemma status_run_aux (ops : List Op) (s : Store) (j : Job)
    (h : j ∈ (ops.foldl applyOp s).jobs) :
    (∃ j0 ∈ s.jobs, j.status = j0.status) ∨ j.status = "running" ∨
    ∃ p now, Op.complete p now ∈ ops ∧ j.status = p.status := by
  induction ops generalizing s with
  | nil => exact Or.inl ⟨j, h, rfl⟩
  | cons op rest ih =>
      rcases ih (applyOp s op) h with ⟨j0, hj0, hst⟩ | h' | ⟨p, now, hmem, hst⟩
      · rcases status_mem_applyOp hj0 with ⟨j1, hj1, hst1⟩ | h1 | ⟨p, now, hop, hst1⟩
        · exact Or.inl ⟨j1, hj1, hst.trans hst1⟩
        · exact Or.inr (Or.inl (hst.trans h1))
        · exact Or.inr (Or.inr ⟨p, now, by simp [hop], hst.trans hst1⟩)
      · exact Or.inr (Or.inl h')
      · exact Or.inr (Or.inr ⟨p, now, List.mem_cons_of_mem _ hmem, hst⟩)

/-- C4 (amended): every job reachable by any sequence of start/progress/
complete API calls has status `running` (the creation default, which progress
reports never change) or the verbatim status string of some complete call of
the sequence; the handler does not validate terminal values, so status stays
in {running, success, failed} only when every complete call supplies a
terminal value, and a later complete call can move a terminal status back to
`running`. -/
theorem C4_amended_status_from_reports (ops : List Op) (j : Job)
    (h : j ∈ (run ops).jobs) :
    j.status = "running" ∨
    ∃ p now, Op.complete p now ∈ ops ∧ j.status = p.status := by
  rcases status_run_aux ops emptyStore j h with ⟨j0, hj0, _⟩ | h' | h'
  · simp [emptyStore] at hj0
  · exact Or.inl h'
  · exact Or.inr h'

/-- C4 witness: the amended statement evaluated at the one-call sequence
`[start]` and the job it creates. -/
theorem C4_witness :
    exJob1.status = "running" ∨
    ∃ p now, Op.complete p now ∈ [Op.start exStart 0] ∧ exJob1.status = p.status :=
  C4_amended_status_from_reports [Op.start exStart 0] exJob1 (by decide)

end Dashboard

namespace Dashboard

lemma ids_lt_next_applyOp {s : Store} (op : Op)
    (h : ∀ j ∈ s.jobs, j.id < s.next_job_id) :
    ∀ j ∈ (applyOp s op).jobs, j.id < (applyOp s op).next_job_id := by
  cases op with
  | start p now =>
      intro j hj
      simp only [applyOp, api_start] at hj ⊢
      rcases List.mem_append.mp hj with h' | h'
      · exact Nat.lt_succ_of_lt (h j h')
      · have hj' : j = ⟨s.next_job_id, p.job_name, p.scope, p.triggered_by,
            "running", 0, now, none⟩ := by simpa using h'
        subst hj'
        exact Nat.lt_succ_self _
  | progress p now =>
      intro j hj
      cases hf : findJob s p.job_id with
      | none =>
          simp only [applyOp] at hj ⊢
          rw [show api_progress p now s = .notFound by
            unfold api_progress; rw [hf]] at hj ⊢
          exact h j hj
      | some job =>
          simp only [applyOp] at hj ⊢
          rw [api_progress_ok_shape p now s job hf] at hj ⊢
          rcases mem_replaceFirstJob hj with h' | ⟨j0, hj0, hid, hje⟩
          · exact h j h'
          · subst hje
            exact h job (mem_of_findJob hf)
  | complete p now =>
      intro j hj
      cases hf : findJob s p.job_id with
      | none =>
          simp only [applyOp] at hj ⊢
          rw [show api_complete p now s = .notFound by
            unfold api_complete; rw [hf]] at hj ⊢
          exact h j hj
      | some job =>
          simp only [applyOp] at hj ⊢
          rw [api_complete_ok_shape p now s job hf] at hj ⊢
          rcases mem_replaceFirstJob hj with h' | ⟨j0, hj0, hid, hje⟩
          · exact h j h'
          · subst hje
            exact h job (mem_of_findJob hf)

lemma ids_lt_next_run_aux (ops : List Op) (s : Store)
    (h : ∀ j ∈ s.jobs, j.id < s.next_job_id) :
    ∀ j ∈ (ops.foldl applyOp s).jobs, j.id < (ops.foldl applyOp s).next_job_id := by
  induction ops generalizing s with
  | nil => exact h
  | cons op rest ih => exact ih (applyOp s op) (ids_lt_next_applyOp op h)

lemma ids_lt_next_run (ops : List Op) :
    ∀ j ∈ (run ops).jobs, j.id < (run ops).next_job_id :=
  ids_lt_next_run_aux ops emptyStore (by simp [emptyStore])

/-- C5: on every store reachable by a sequence of API calls, `createJob`
(`POST /api/jobs/start`) succeeds and returns a job id carried by no existing
job; the jobs table gains exactly the one new row with status `running`,
progress 0, `start_time` equal to the call time and null `end_time`; and the
logs table gains exactly one entry for that id with message "Job started". -/
theorem C5_start_creates_fresh_job (ops : List Op) (p : StartPayload) (now : Nat) :
    (∀ j ∈ (run ops).jobs, j.id ≠ (api_start p now (run ops)).2.2) ∧
    (api_start p now (run ops)).1.jobs
      = (run ops).jobs ++
        [⟨(api_start p now (run ops)).2.2, p.job_name, p.scope, p.triggered_by,
          "running", 0, now, none⟩] ∧
    (api_start p now (run ops)).1.logs
      = (run ops).logs ++
        [⟨(run ops).next_log_id, (api_start p now (run ops)).2.2, now, "info",
          "Job started"⟩] := by
  refine ⟨?_, rfl, rfl⟩
  intro j hj
  exact Nat.ne_of_lt (ids_lt_next_run ops j hj)

/-- C5 witness: the statement evaluated at the empty call sequence and the
concrete start report `exStart`. -/
theorem C5_witness :
    (∀ j ∈ (run []).jobs, j.id ≠ (api_start exStart 0 (run [])).2.2) ∧
    (api_start exStart 0 (run [])).1.jobs
      = (run []).jobs ++
        [⟨(api_start exStart 0 (run [])).2.2, exStart.job_name, exStart.scope,
          exStart.triggered_by, "running", 0, 0, none⟩] ∧
    (api_start exStart 0 (run [])).1.logs
      = (run []).logs ++
        [⟨(run []).next_log_id, (api_start exStart 0 (run [])).2.2, 0, "info",
          "Job started"⟩] :=
  C5_start_creates_fresh_job [] exStart 0

lemma sortedLogsFor_sorted (s : Store) (jid : Nat) :
    List.Sorted logAsc (sortedLogsFor s jid) :=
  List.sorted_insertionSort logAsc _

lemma sortedLogsFor_perm (s : Store) (jid : Nat) :
    (sortedLogsFor s jid).Perm (s.logs.filter (fun l => l.job_id == jid)) :=
  List.perm_insertionSort logAsc _

/-- C6: for every job id, limit and offset, `listLogs` returns log entries of
that job only, with non-decreasing timestamps; the result is the
timestamp-sorted log list of the job with `offset` leading entries skipped
(a non-positive offset skips none) and, when `limit > 0`, at most `limit`
entries kept; a non-positive limit returns all remaining entries, and with no
pagination at all the result is exactly (a permutation of) the job's log
rows. -/
theorem C6_logs_sorted_paginated (s : Store) (jid : Nat) (limit offset : Int) :
    List.Sorted logAsc (api_job_logs jid limit offset s) ∧
    (∀ l ∈ api_job_logs jid limit offset s, l.job_id = jid) ∧
    api_job_logs jid limit offset s
      = (if limit > 0 then
            ((sortedLogsFor s jid).drop offset.toNat).take limit.toNat
          else (sortedLogsFor s jid).drop offset.toNat) ∧
    (limit ≤ 0 →
      api_job_logs jid limit offset s = (sortedLogsFor s jid).drop offset.toNat) ∧
    (limit ≤ 0 → offset ≤ 0 →
      (api_job_logs jid limit offset s).Perm
        (s.logs.filter (fun l => l.job_id == jid))) := by
  have hq : (if offset > 0 then (sortedLogsFor s jid).drop offset.toNat
      else sortedLogsFor s jid) = (sortedLogsFor s jid).drop offset.toNat := by
    by_cases ho : offset > 0
    · simp [ho]
    · rw [if_neg ho, Int.toNat_of_nonpos (Int.not_lt.mp ho), List.drop_zero]
  have hnorm : api_job_logs jid limit offset s
      = (if limit > 0 then
            ((sortedLogsFor s jid).drop offset.toNat).take limit.toNat
          else (sortedLogsFor s jid).drop offset.toNat) := by
    simp only [api_job_logs]
    rw [hq]
  have hdropsub : List.Sublist ((sortedLogsFor s jid).drop offset.toNat)
      (sortedLogsFor s jid) := List.drop_sublist _ _
  have hsub : List.Sublist (api_job_logs jid limit offset s)
      (sortedLogsFor s jid) := by
    rw [hnorm]
    by_cases hl : limit > 0
    · rw [if_pos hl]
      exact (List.take_sublist _ _).trans hdropsub
    · rw [if_neg hl]
      exact hdropsub
  refine ⟨?_, ?_, hnorm, ?_, ?_⟩
  · exact List.Pairwise.sublist hsub (sortedLogsFor_sorted s jid)
  · intro l hl
    have hmem : l ∈ s.logs.filter (fun x => x.job_id == jid) :=
      (sortedLogsFor_perm s jid).subset (hsub.subset hl)
    simpa using List.of_mem_filter hmem
  · intro hle
    rw [hnorm, if_neg (Int.not_lt.mpr hle)]
  · intro hle hoff
    rw [hnorm, if_neg (Int.not_lt.mpr hle), Int.toNat_of_nonpos hoff,
      List.drop_zero]
    exact sortedLogsFor_perm s jid

/-- C6 witness: evaluated on the two-log store with an unbounded limit and a
zero offset: the full, timestamp-sorted log list for job 1 comes back. -/
theorem C6_witness :
    List.Sorted logAsc (api_job_logs 1 (-1) 0 exStore2) ∧
    (∀ l ∈ api_job_logs 1 (-1) 0 exStore2, l.job_id = 1) ∧
    (api_job_logs 1 (-1) 0 exStore2).Perm
      (exStore2.logs.filter (fun l => l.job_id == 1)) := by
  have h := C6_logs_sorted_paginated exStore2 1 (-1) 0
  exact ⟨h.1, h.2.1, h.2.2.2.2 (by decide) (by decide)⟩

end Dashboard

namespace Dashboard

/-- C7: for every range parameter, `listJobs` returns exactly the jobs whose
`start_time` is at or after the cutoff selected by the range keyword, in
non-increasing `start_time` order; every range value other than the three
recognized keywords uses `datetime.min` as cutoff, so the result then contains
all jobs. -/
theorem C7_jobs_range_filter (s : Store) (range : String) (now : Nat) :
    (api_jobs range now s).Perm
      (s.jobs.filter (fun j => decide (cutoffFor range now ≤ j.start_time))) ∧
    List.Sorted jobDesc (api_jobs range now s) ∧
    (range ≠ "24h" → range ≠ "7d" → range ≠ "30d" →
      (api_jobs range now s).Perm s.jobs) := by
  refine ⟨List.perm_insertionSort jobDesc _, List.sorted_insertionSort jobDesc _, ?_⟩
  intro h1 h2 h3
  have hc : cutoffFor range now = 0 := by
    simp [cutoffFor, h1, h2, h3]
  have hfilter : s.jobs.filter (fun j => decide (cutoffFor range now ≤ j.start_time))
      = s.jobs := by
    rw [hc]
    exact List.filter_eq_self.mpr (by intro a _; simp)
  rw [← hfilter]
  exact List.perm_insertionSort jobDesc _

/-- C7 witness: evaluated at the unrecognized range string "all" on the
one-job store. -/
theorem C7_witness :
    (api_jobs "all" 5 exStore).Perm
      (exStore.jobs.filter (fun j => decide (cutoffFor "all" 5 ≤ j.start_time))) ∧
    List.Sorted jobDesc (api_jobs "all" 5 exStore) ∧
    (api_jobs "all" 5 exStore).Perm exStore.jobs := by
  have h := C7_jobs_range_filter exStore "all" 5
  exact ⟨h.1, h.2.1, h.2.2 (by decide) (by decide) (by decide)⟩

end Dashboard

namespace Dashboard

lemma truthy_none : truthy none = false := rfl

lemma truthy_some_nil : truthy (some "") = false := by decide

lemma getElem_replaceFirstJob_fields (f : Job → Job) (jid : Nat)
    (hpres : ∀ j, f j = { j with progress := (f j).progress })
    (l : List Job) (i : Nat)
    (hi : i < (replaceFirstJob f jid l).length) (hi' : i < l.length) :
    ((replaceFirstJob f jid l)[i]).id = (l[i]).id ∧
    ((replaceFirstJob f jid l)[i]).status = (l[i]).status ∧
    ((replaceFirstJob f jid l)[i]).end_time = (l[i]).end_time ∧
    ((replaceFirstJob f jid l)[i]).job_name = (l[i]).job_name ∧
    ((replaceFirstJob f jid l)[i]).scope = (l[i]).scope ∧
    ((replaceFirstJob f jid l)[i]).triggered_by = (l[i]).triggered_by ∧
    ((replaceFirstJob f jid l)[i]).start_time = (l[i]).start_time := by
  rcases getElem_replaceFirstJob f jid l i hi hi' with he | he
  · simp [he]
  · rw [he, hpres (l[i])]
    simp

/-- C8: every `recordProgress` call on a known job returns ok and leaves the
jobs table the same length, with every row keeping its `id`, `status`,
`end_time`, `job_name`, `scope`, `triggered_by` and `start_time`
(only `progress` may be overwritten, and a log row may be appended); in
particular a progress report on a job with terminal status never sets the
status back to `running`. -/
theorem C8_progress_preserves_other_fields (p : ProgressPayload) (now : Nat)
    (s : Store) (job : Job) (hf : findJob s p.job_id = some job) :
    ∃ s' evs, api_progress p now s = .ok (s', evs) ∧
      s'.jobs.length = s.jobs.length ∧
      ∀ i (hi : i < s'.jobs.length) (hi' : i < s.jobs.length),
        (s'.jobs[i]).id = (s.jobs[i]).id ∧
        (s'.jobs[i]).status = (s.jobs[i]).status ∧
        (s'.jobs[i]).end_time = (s.jobs[i]).end_time ∧
        (s'.jobs[i]).job_name = (s.jobs[i]).job_name ∧
        (s'.jobs[i]).scope = (s.jobs[i]).scope ∧
        (s'.jobs[i]).triggered_by = (s.jobs[i]).triggered_by ∧
        (s'.jobs[i]).start_time = (s.jobs[i]).start_time := by
  have hf' : s.jobs.find? (fun j => j.id == p.job_id) = some job := hf
  have hok := api_progress_ok_shape p now s job hf
  rw [show replaceFirstJob
        (fun _ => ({ job with progress := p.progress.getD job.progress } : Job))
        p.job_id s.jobs
      = replaceFirstJob (fun j => { j with progress := p.progress.getD j.progress })
        p.job_id s.jobs
    from replaceFirst_const_eq
      (fun j => { j with progress := p.progress.getD j.progress }) hf'] at hok
  refine ⟨_, _, hok, length_replaceFirstJob _ _ _, ?_⟩
  intro i hi hi'
  exact getElem_replaceFirstJob_fields
    (fun j => { j with progress := p.progress.getD j.progress }) p.job_id
    (fun _ => rfl) s.jobs i hi hi'

/-- C8 witness: the statement evaluated at the out-of-range progress report on
the one-job store. -/
theorem C8_witness :
    ∃ s' evs, api_progress exProgress150 5 exStore = .ok (s', evs) ∧
      s'.jobs.length = exStore.jobs.length ∧
      ∀ i (hi : i < s'.jobs.length) (hi' : i < exStore.jobs.length),
        (s'.jobs[i]).id = (exStore.jobs[i]).id ∧
        (s'.jobs[i]).status = (exStore.jobs[i]).status ∧
        (s'.jobs[i]).end_time = (exStore.jobs[i]).end_time ∧
        (s'.jobs[i]).job_name = (exStore.jobs[i]).job_name ∧
        (s'.jobs[i]).scope = (exStore.jobs[i]).scope ∧
        (s'.jobs[i]).triggered_by = (exStore.jobs[i]).triggered_by ∧
        (s'.jobs[i]).start_time = (exStore.jobs[i]).start_time :=
  C8_progress_preserves_other_fields exProgress150 5 exStore exJob1 (by decide)

/-- C9: `broadcast` delivers to every currently-registered observer and never
propagates a delivery failure to the publisher: whatever the per-observer
delivery outcomes are, the call returns normally (`.ok`), the outcome list has
one entry per registered observer, and each observer's entry is exactly its
own delivery outcome, independent of the failures of the others. -/
theorem C9_broadcast_attempts_all (active : List Observer)
    (send : Observer → Except String Unit) :
    ∃ rs, broadcast active send = .ok rs ∧ rs.length = active.length ∧
      ∀ i (hi : i < rs.length) (hi' : i < active.length),
        rs[i] = send (active[i]) := by
  cases active with
  | nil =>
      refine ⟨[], rfl, rfl, ?_⟩
      intro i hi hi'
      exact absurd hi (by simp)
  | cons a as =>
      refine ⟨(a :: as).map send, rfl, by simp, ?_⟩
      intro i hi hi'
      exact List.getElem_map send

/-- C9 witness: a two-observer hub where observer 0's channel fails: the call
still returns normally, both observers get a delivery attempt, and observer
1's delivery outcome is unaffected. -/
theorem C9_witness :
    ∃ rs, broadcast [0, 1] exSend = .ok rs ∧
      rs.length = ([0, 1] : List Observer).length ∧
      ∀ i (hi : i < rs.length) (hi' : i < ([0, 1] : List Observer).length),
        rs[i] = exSend (([0, 1] : List Observer)[i]) :=
  C9_broadcast_attempts_all [0, 1] exSend

/-- C10: a `recordProgress` call on a known job whose message field is the
empty string behaves exactly as if no message was supplied: the response
equals that of the same payload with message `None`, the call returns ok, no
log entry is appended, and the only broadcast event is `job_progress` (no
`job_log` event). -/
theorem C10_empty_message_like_none (p : ProgressPayload) (now : Nat)
    (s : Store) (job : Job)
    (hm : p.message = some "") (hf : findJob s p.job_id = some job) :
    api_progress p now s = api_progress { p with message := none } now s ∧
    ∃ s' evs, api_progress p now s = .ok (s', evs) ∧ s'.logs = s.logs ∧
      evs = [Event.job_progress
        { job with progress := p.progress.getD job.progress }] := by
  have hok := api_progress_ok_shape p now s job hf
  have hf2 : findJob s ({ p with message := none } : ProgressPayload).job_id
      = some job := hf
  have hok2 := api_progress_ok_shape { p with message := none } now s job hf2
  rw [hm] at hok
  simp only [truthy_some_nil, Bool.false_eq_true, if_false] at hok
  simp only [truthy_none, Bool.false_eq_true, if_false] at hok2
  constructor
  · rw [hok, hok2]
  · exact ⟨_, _, hok, rfl, rfl⟩

/-- C10 witness: the statement evaluated at the progress report carrying the
empty-string message on the one-job store. -/
theorem C10_witness :
    api_progress exProgressEmptyMsg 4 exStore
      = api_progress { exProgressEmptyMsg with message := none } 4 exStore ∧
    ∃ s' evs, api_progress exProgressEmptyMsg 4 exStore = .ok (s', evs) ∧
      s'.logs = exStore.logs ∧
      evs = [Event.job_progress
        { exJob1 with progress := exProgressEmptyMsg.progress.getD exJob1.progress }] :=
  C10_empty_message_like_none exProgressEmptyMsg 4 exStore exJob1 rfl (by decide)

end Dashboard
